import Mathlib

/-!
Shallow embedding of the secma-core RBAC service (Security-Machine/py-core).

Rows mirror the SQLAlchemy models under `src/secma_core/db/models`; the
`Store` type stands for the relational database (one list per table, in
insertion order, plus the id sequence).  Handler functions mirror the
FastAPI endpoint bodies and `init_db` under `src/secma_core`.  The commit
step enforces exactly the uniqueness constraints declared in the schema:
`Application.slug`, `Role.name` and `Permission.name` carry `unique=True`
(a bare-column, hence global, constraint); `Tenant.slug` and `User.name`
carry no uniqueness constraint; primary keys are unique.
-/

namespace SecmaCore

/-- Row of the applications table (`db/models/application.py`). -/
structure AppRow where
  id : Nat
  slug : String
  title : Option String := none
  deriving DecidableEq, Repr

/-- Row of the tenants table (`db/models/tenant.py`). -/
structure TenantRow where
  id : Nat
  slug : String
  title : Option String := none
  applicationId : Nat
  deriving DecidableEq, Repr

/-- Row of the users table (`db/models/user.py`). -/
structure UserRow where
  id : Nat
  name : String
  password : Option String := none
  suspended : Bool := false
  tenantId : Nat
  deriving DecidableEq, Repr

/-- Row of the roles table (`db/models/role.py`). -/
structure RoleRow where
  id : Nat
  name : String
  tenantId : Nat
  deriving DecidableEq, Repr

/-- Row of the permissions table (`db/models/permission.py`). -/
structure PermRow where
  id : Nat
  name : String
  description : Option String := none
  tenantId : Nat
  deriving DecidableEq, Repr

/-- The relational store: one list per table (in insertion order), the two
many-to-many association tables (`user2role` holds `(user_id, role_id)`
pairs, `perm2role` holds `(perm_id, role_id)` pairs), and the id
sequence used for primary keys. -/
structure Store where
  apps : List AppRow := []
  tenants : List TenantRow := []
  users : List UserRow := []
  roles : List RoleRow := []
  perms : List PermRow := []
  user2role : List (Nat × Nat) := []
  perm2role : List (Nat × Nat) := []
  nextId : Nat := 0
  deriving DecidableEq, Repr

/-- The empty database. -/
def emptyStore : Store := {}

/-- Check that a projection of a list has no duplicates. -/
def uniqueBy (l : List α) (f : α → β) [DecidableEq β] : Bool :=
  (l.map f).Nodup

/-- The uniqueness constraints present in the schema: `Application.slug`,
`Role.name` and `Permission.name` are declared `unique=True` on the bare
column (so they are global), and every primary key is unique.
`Tenant.slug` and `User.name` have no uniqueness constraint. -/
def Store.constraintsOk (s : Store) : Bool :=
  uniqueBy s.apps (·.slug) &&
  uniqueBy s.roles (·.name) &&
  uniqueBy s.perms (·.name) &&
  uniqueBy s.apps (·.id) &&
  uniqueBy s.tenants (·.id) &&
  uniqueBy s.users (·.id) &&
  uniqueBy s.roles (·.id) &&
  uniqueBy s.perms (·.id)

/-- A commit either persists the pending state or raises an
`IntegrityError` when a declared constraint is violated (modelled as
`none`; the surrounding session then rolls the transaction back). -/
def commitStore (s : Store) : Option Store :=
  if s.constraintsOk then some s else none

/-- Referential well-formedness of a store: every foreign key points below
the id sequence, so a freshly drawn id is referenced by no existing row. -/
def Store.WF (s : Store) : Prop :=
  (∀ a ∈ s.apps, a.id < s.nextId) ∧
  (∀ t ∈ s.tenants, t.id < s.nextId ∧ t.applicationId < s.nextId) ∧
  (∀ u ∈ s.users, u.tenantId < s.nextId) ∧
  (∀ r ∈ s.roles, r.tenantId < s.nextId) ∧
  (∀ p ∈ s.perms, p.tenantId < s.nextId)

instance (s : Store) : Decidable s.WF := by
  unfold Store.WF; infer_instance

/-- Result of SQLAlchemy's `scalar_one()`: exactly one row, no row
(`NoResultFound`), or several rows (`MultipleResultsFound`, which no
handler catches, so it surfaces as an internal error). -/
inductive ScalarOne (α : Type) where
  | one (a : α)
  | noResult
  | multiple
  deriving DecidableEq, Repr

/-- Evaluate `scalar_one()` on the rows produced by a select. -/
def scalarOne : List α → ScalarOne α
  | [] => .noResult
  | [a] => .one a
  | _ :: _ :: _ => .multiple

/-- The join `Tenant -> Application` used by every `select_*_by_slug`
selector: does tenant `tid` have slug `tnSlug` under an application with
slug `appSlug`? -/
def tenantPathMatches (s : Store) (appSlug tnSlug : String) (tid : Nat) : Bool :=
  s.tenants.any (fun t =>
    t.id == tid && t.slug == tnSlug &&
    s.apps.any (fun a => a.id == t.applicationId && a.slug == appSlug))

/-- The join `Tenant` by id used by `select_*_by_id` selectors: does
tenant `tid` belong to application `appId`? -/
def tenantAppMatches (s : Store) (appId tid : Nat) : Bool :=
  s.tenants.any (fun t => t.id == tid && t.applicationId == appId)

/-- Selector `select_user_by_slug(app_slug, tn_slug, name=...)`
(`db/selectors.py`). -/
def select_user_by_slug_name (s : Store) (appSlug tnSlug name : String) : List UserRow :=
  s.users.filter (fun u => u.name == name && tenantPathMatches s appSlug tnSlug u.tenantId)

/-- Selector `select_user_by_slug(app_slug, tn_slug, id=...)`. -/
def select_user_by_slug_id (s : Store) (appSlug tnSlug : String) (id : Nat) : List UserRow :=
  s.users.filter (fun u => u.id == id && tenantPathMatches s appSlug tnSlug u.tenantId)

/-- Selector `select_role_by_slug(app_slug, tn_slug, id=...)`. -/
def select_role_by_slug_id (s : Store) (appSlug tnSlug : String) (id : Nat) : List RoleRow :=
  s.roles.filter (fun r => r.id == id && tenantPathMatches s appSlug tnSlug r.tenantId)

/-- Selector `select_role_by_slug(app_slug, tn_slug, name=...)`. -/
def select_role_by_slug_name (s : Store) (appSlug tnSlug name : String) : List RoleRow :=
  s.roles.filter (fun r => r.name == name && tenantPathMatches s appSlug tnSlug r.tenantId)

/-- Selector `select_role_by_id(app_id, tn_id, name=...)`. -/
def select_role_by_id_name (s : Store) (appId tnId : Nat) (name : String) : List RoleRow :=
  s.roles.filter (fun r => r.name == name && r.tenantId == tnId && tenantAppMatches s appId r.tenantId)

/-- Selector `select_perm_by_slug(app_slug, tn_slug, id=...)`. -/
def select_perm_by_slug_id (s : Store) (appSlug tnSlug : String) (id : Nat) : List PermRow :=
  s.perms.filter (fun p => p.id == id && tenantPathMatches s appSlug tnSlug p.tenantId)

/-- Selector `select_perm_by_id(app_id, tn_id, name=...)`. -/
def select_perm_by_id_name (s : Store) (appId tnId : Nat) (name : String) : List PermRow :=
  s.perms.filter (fun p => p.name == name && p.tenantId == tnId && tenantAppMatches s appId p.tenantId)

/-! ### Permission resolver (`User.get_permissions`, `db/models/user.py`) -/

/-- A loaded `Permission` object as seen by `User.get_permissions`. -/
structure PermObj where
  name : String
  deriving DecidableEq, Repr

/-- A loaded `Role` object with its `perms` collection. -/
structure RoleObj where
  perms : List PermObj
  deriving DecidableEq, Repr

/-- A loaded `User` object with its `roles` collection. -/
structure UserObj where
  roles : List RoleObj
  deriving DecidableEq, Repr

/-- `User.get_permissions`: start from an empty set, walk every role and
every permission of the role, and add the permission's name. -/
def UserObj.get_permissions (u : UserObj) : Finset String :=
  u.roles.foldl (fun acc role => role.perms.foldl (fun a p => insert p.name a) acc) ∅

/-- Load the `roles` collection of a user (the `user2role` join). -/
def loadRoles (s : Store) (u : UserRow) : List RoleRow :=
  s.roles.filter (fun r => s.user2role.contains (u.id, r.id))

/-- Load the `perms` collection of a role (the `perm2role` join). -/
def loadPerms (s : Store) (r : RoleRow) : List PermRow :=
  s.perms.filter (fun p => s.perm2role.contains (p.id, r.id))

/-- The in-memory object graph backing a user row, as `joinedload`
materialises it for `get_current_user` and `common_login`. -/
def loadUserObj (s : Store) (u : UserRow) : UserObj :=
  ⟨(loadRoles s u).map (fun r => ⟨(loadPerms s r).map (fun p => ⟨p.name⟩)⟩)⟩

/-- The live permission set of a user row: `user.get_permissions()` on the
loaded object graph. -/
def userPermissions (s : Store) (u : UserRow) : Finset String :=
  (loadUserObj s u).get_permissions

/-! ### Authorization protocol (`server/dependencies/auth.py`) -/

/-- `MANAGEMENT_APP` from `server/constants.py`. -/
def MANAGEMENT_APP : String := "management"

/-- `MANAGEMENT_TENANT` from `server/constants.py`. -/
def MANAGEMENT_TENANT : String := "sec-ma"

/-- The two detail codes produced by `auth_error`: `is_auth=True` yields
the `invalid-credentials` message, `is_auth=False` the `no-permission`
message; both are sent with HTTP status 401. -/
inductive AuthFailKind where
  | invalidCredentials
  | noPermission
  deriving DecidableEq, Repr

/-- Decoded JWT payload as read by `get_current_user`: `payload.get("sub")`
and `payload.get("scopes", [])`. -/
structure TokenPayload where
  sub : Option String := none
  scopes : List String := []
  deriving DecidableEq, Repr

/-- The authenticated-request context built on success (a `UserContext`
anchored at the management application and tenant). -/
structure UserCtx where
  appSlug : String
  tnSlug : String
  user : UserRow
  deriving DecidableEq, Repr

/-- Outcome of `get_current_user`: the context, a 401 with one of the two
`auth_error` detail codes, or an uncaught exception (HTTP 500). -/
inductive AuthOutcome where
  | ok (ctx : UserCtx)
  | err (kind : AuthFailKind)
  | internalError
  deriving DecidableEq, Repr

/-- `get_current_user` (`server/dependencies/auth.py`).  The token input is
the result of `jwt.decode`: `none` models a `JWTError` (bad signature,
malformed or expired token), `some payload` a token that verified. -/
def get_current_user (s : Store) (reqPerm : Finset String)
    (decoded : Option TokenPayload) : AuthOutcome :=
  match decoded with
  | none => .err .invalidCredentials
  | some payload =>
    match payload.sub with
    | none => .err .invalidCredentials
    | some username =>
      if username = "" then .err .invalidCredentials
      else
        let tokenScopes := payload.scopes.toFinset
        if tokenScopes = ∅ then .err .noPermission
        else
          match scalarOne (select_user_by_slug_name s MANAGEMENT_APP MANAGEMENT_TENANT username) with
          | .noResult => .err .invalidCredentials
          | .multiple => .internalError
          | .one user =>
            let userPerms := userPermissions s user
            if user.suspended then .err .invalidCredentials
            else if ¬ reqPerm ⊆ tokenScopes then .err .noPermission
            else if ¬ reqPerm ⊆ userPerms then .err .noPermission
            else .ok ⟨MANAGEMENT_APP, MANAGEMENT_TENANT, user⟩

/-! ### Token issuance (`common_login`, `server/management/auth.py`) -/

/-- The `OAuth2PasswordRequestForm` fields `common_login` reads. -/
structure LoginForm where
  username : String
  password : String
  scopes : List String := []
  deriving DecidableEq, Repr

/-- Outcome of `common_login`: the data embedded in the signed token
(subject name and granted scope set), a 401 `auth_error`, or an uncaught
exception. -/
inductive LoginOutcome where
  | token (sub : String) (scopes : Finset String)
  | err (kind : AuthFailKind)
  | internalError
  deriving DecidableEq

/-- `common_login` (`server/management/auth.py`).  `allowLogin` is
`settings.ep.allow_login`; `verify pw hash` is
`context.pwd_context.verify` (passlib raises on a `None` stored hash,
which the generic handler turns into a 500). -/
def common_login (s : Store) (allowLogin : Bool)
    (verify : String → String → Bool) (form : LoginForm)
    (appSlug tnSlug : String) : LoginOutcome :=
  if ¬ allowLogin then .err .invalidCredentials
  else if form.username = "" then .err .invalidCredentials
  else
    match scalarOne (select_user_by_slug_name s appSlug tnSlug form.username) with
    | .noResult => .err .invalidCredentials
    | .multiple => .internalError
    | .one user =>
      let userPerms := userPermissions s user
      if user.suspended then .err .invalidCredentials
      else
        match user.password with
        | none => .internalError
        | some stored =>
          if ¬ verify form.password stored then .err .invalidCredentials
          else
            let reqPerm := form.scopes.toFinset
            if reqPerm = ∅ then .token user.name userPerms
            else if ¬ reqPerm ⊆ userPerms then .err .invalidCredentials
            else .token user.name reqPerm

/-! ### Tenant endpoints (`server/tenants/tenant.py`) -/

/-- Responses of `edit_tenant`: the updated `TenantData`, the `no_tenant`
404, the `duplicate_tenant` 409, or an uncaught exception (500). -/
inductive TenantEditOutcome where
  | ok (slug : String)
  | noTenant (tnSlug : String)
  | duplicateTenant (slug : String)
  | internalError
  deriving DecidableEq, Repr

/-- `edit_tenant` (`server/tenants/tenant.py`): locate the tenant through
its application, probe for another tenant already using the new slug
(filtering only on `Tenant.slug == data.slug` and `Tenant.id != result.id`,
with no application filter), then update and commit. -/
def edit_tenant (s : Store) (appSlug tnSlug newSlug : String) :
    TenantEditOutcome × Store :=
  match scalarOne (s.tenants.filter (fun t =>
      t.slug == tnSlug &&
      s.apps.any (fun a => a.id == t.applicationId && a.slug == appSlug))) with
  | .noResult => (.noTenant tnSlug, s)
  | .multiple => (.internalError, s)
  | .one result =>
    if s.tenants.any (fun t => t.slug == newSlug && t.id != result.id) then
      (.duplicateTenant newSlug, s)
    else
      let pending := { s with tenants := s.tenants.map (fun t =>
        if t.id == result.id then { t with slug := newSlug } else t) }
      match commitStore pending with
      | some s₁ => (.ok newSlug, s₁)
      | none => (.internalError, s)

/-- Responses of `create_tenant`: the created `TenantData`, the
`duplicate_tenant` 409, or an uncaught exception (500). -/
inductive TenantCreateOutcome where
  | ok (slug : String)
  | duplicateTenant (slug : String)
  | internalError
  deriving DecidableEq, Repr

/-- `create_tenant` (`server/tenants/tenant.py`): probe for a tenant with
the same slug inside the same application, then insert and commit. -/
def create_tenant (s : Store) (appId : Nat) (slug : String) :
    TenantCreateOutcome × Store :=
  if s.tenants.any (fun t => t.slug == slug && t.applicationId == appId) then
    (.duplicateTenant slug, s)
  else
    let newRec : TenantRow := { id := s.nextId, slug := slug, applicationId := appId }
    let pending := { s with tenants := s.tenants ++ [newRec], nextId := s.nextId + 1 }
    match commitStore pending with
    | some s₁ => (.ok slug, s₁)
    | none => (.internalError, s)

/-! ### Role and permission creation (`server/permissions/role.py`,
`server/permissions/permission.py`) -/

/-- Responses of `create_role` / `create_permission`: the created record,
the duplicate 409, or an uncaught exception (500, the fate of an
`IntegrityError` raised at commit, which no handler catches). -/
inductive CreateOutcome where
  | ok (name : String)
  | duplicate (name : String)
  | internalError
  deriving DecidableEq, Repr

/-- `create_role` (`server/permissions/role.py`): probe with
`select_role_by_id(app_id, tn_id, name=...)`, then insert and commit. -/
def create_role (s : Store) (appId tnId : Nat) (name : String) :
    CreateOutcome × Store :=
  if (select_role_by_id_name s appId tnId name).isEmpty = false then
    (.duplicate name, s)
  else
    let newRec : RoleRow := { id := s.nextId, name := name, tenantId := tnId }
    let pending := { s with roles := s.roles ++ [newRec], nextId := s.nextId + 1 }
    match commitStore pending with
    | some s₁ => (.ok name, s₁)
    | none => (.internalError, s)

/-- `create_permission` (`server/permissions/permission.py`): probe with
`select_perm_by_id(app_id, tn_id, name=...)`, then insert and commit. -/
def create_permission (s : Store) (appId tnId : Nat) (name : String) :
    CreateOutcome × Store :=
  if (select_perm_by_id_name s appId tnId name).isEmpty = false then
    (.duplicate name, s)
  else
    let newRec : PermRow := { id := s.nextId, name := name, tenantId := tnId }
    let pending := { s with perms := s.perms ++ [newRec], nextId := s.nextId + 1 }
    match commitStore pending with
    | some s₁ => (.ok name, s₁)
    | none => (.internalError, s)

/-! ### Association endpoints (`server/users/roles.py`,
`server/permissions/role_perm.py`) -/

/-- Add an element to a Python `set`-backed association collection: a
no-op when the edge is already present. -/
def addAssoc (l : List (Nat × Nat)) (a : Nat × Nat) : List (Nat × Nat) :=
  if a ∈ l then l else l ++ [a]

/-- Responses of the user↔role association endpoints: the updated set of
role ids, the structured `no_role` 404 (error code `no-role`), the plain
404 listing the ids "not found with this user", or an uncaught
exception (500). -/
inductive UserRolesOutcome where
  | ok (roleIds : Finset Nat)
  | noRole (roleId : Nat)
  | missingRoles (missing : Finset Nat)
  | internalError
  deriving DecidableEq

/-- `add_role_to_user` (`server/users/roles.py`): locate the role through
the slug path, add it to `user.roles` (a set, so re-adding succeeds),
commit, and return the updated role list. -/
def add_role_to_user (s : Store) (appSlug tnSlug : String) (user : UserRow)
    (roleId : Nat) : UserRolesOutcome × Store :=
  match scalarOne (select_role_by_slug_id s appSlug tnSlug roleId) with
  | .noResult => (.noRole roleId, s)
  | .multiple => (.internalError, s)
  | .one role =>
    let pending := { s with user2role := addAssoc s.user2role (user.id, role.id) }
    match commitStore pending with
    | some s₁ => (.ok ((loadRoles s₁ user).map (·.id)).toFinset, s₁)
    | none => (.internalError, s)

/-- `remove_roles_from_user` (`server/users/roles.py`): select the roles
of the tenant that are both in `data` and assigned to the user; if any
requested id is missing from that selection — whether the role is merely
not assigned or does not exist at all — return the plain 404; otherwise
drop the edges and commit. -/
def remove_roles_from_user (s : Store) (appSlug tnSlug : String)
    (user : UserRow) (data : List Nat) : UserRolesOutcome × Store :=
  let roles := s.roles.filter (fun r =>
    tenantPathMatches s appSlug tnSlug r.tenantId &&
    data.contains r.id && s.user2role.contains (user.id, r.id))
  let missing := data.toFinset \ (roles.map (·.id)).toFinset
  if missing ≠ ∅ then (.missingRoles missing, s)
  else
    let pending := { s with user2role := s.user2role.filter (fun e =>
      ¬ (e.1 == user.id && (roles.map (·.id)).contains e.2)) }
    match commitStore pending with
    | some s₁ => (.ok ((loadRoles s₁ user).map (·.id)).toFinset, s₁)
    | none => (.internalError, s)

/-- Responses of the role↔permission association endpoints, mirroring
`UserRolesOutcome`. -/
inductive RolePermsOutcome where
  | ok (permIds : Finset Nat)
  | noPerm (permId : Nat)
  | missingPerms (missing : Finset Nat)
  | internalError
  deriving DecidableEq

/-- `add_permission_to_role` (`server/permissions/role_perm.py`). -/
def add_permission_to_role (s : Store) (appSlug tnSlug : String)
    (role : RoleRow) (permId : Nat) : RolePermsOutcome × Store :=
  match scalarOne (select_perm_by_slug_id s appSlug tnSlug permId) with
  | .noResult => (.noPerm permId, s)
  | .multiple => (.internalError, s)
  | .one permission =>
    let pending := { s with perm2role := addAssoc s.perm2role (permission.id, role.id) }
    match commitStore pending with
    | some s₁ => (.ok ((loadPerms s₁ role).map (·.id)).toFinset, s₁)
    | none => (.internalError, s)

/-- `remove_permissions_from_role` (`server/permissions/role_perm.py`). -/
def remove_permissions_from_role (s : Store) (appSlug tnSlug : String)
    (role : RoleRow) (data : List Nat) : RolePermsOutcome × Store :=
  let permissions := s.perms.filter (fun p =>
    tenantPathMatches s appSlug tnSlug p.tenantId &&
    data.contains p.id && s.perm2role.contains (p.id, role.id))
  let missing := data.toFinset \ (permissions.map (·.id)).toFinset
  if missing ≠ ∅ then (.missingPerms missing, s)
  else
    let pending := { s with perm2role := s.perm2role.filter (fun e =>
      ¬ ((permissions.map (·.id)).contains e.1 && e.2 == role.id)) }
    match commitStore pending with
    | some s₁ => (.ok ((loadPerms s₁ role).map (·.id)).toFinset, s₁)
    | none => (.internalError, s)

/-! ### Bootstrap initializer (`db/init_db.py`) -/

/-- Arguments of `init_db` (the permission catalog is a Python dict, so
its keys are pairwise distinct and iterate in insertion order). -/
structure InitArgs where
  app : String
  tenant : String
  perms : List (String × String)
  user : String
  password : String
  role : String

/-- The `InitDbResult` record (`db/init_db.py`): resolved rows and the
newly-created flags; `perms` maps each catalog name to its row and flag. -/
structure InitDbResult where
  app : AppRow
  isAppNew : Bool
  tenant : TenantRow
  isTNew : Bool
  user : UserRow
  isUNew : Bool
  role : RoleRow
  isRNew : Bool
  perms : List (String × PermRow × Bool)
  hasNewPerms : Bool
  deriving DecidableEq, Repr

/-- Step 1 of `init_db`: ensure the application exists. -/
def ensureApp (s : Store) (slug : String) : Store × AppRow × Bool :=
  match s.apps.find? (fun a => a.slug == slug) with
  | some a => (s, a, false)
  | none =>
    let a : AppRow := { id := s.nextId, slug := slug }
    ({ s with apps := s.apps ++ [a], nextId := s.nextId + 1 }, a, true)

/-- Step 2 of `init_db`: ensure the tenant exists; the probe is skipped
when the application is new (a fresh parent has no descendants). -/
def ensureTenant (s : Store) (slug : String) (appId : Nat) (isAppNew : Bool) :
    Store × TenantRow × Bool :=
  let probe := if isAppNew then none else
    s.tenants.find? (fun t => t.slug == slug && t.applicationId == appId)
  match probe with
  | some t => (s, t, false)
  | none =>
    let t : TenantRow := { id := s.nextId, slug := slug, applicationId := appId }
    ({ s with tenants := s.tenants ++ [t], nextId := s.nextId + 1 }, t, true)

/-- Step 3 of `init_db`: ensure the super-user exists; the probe is
skipped when the tenant is new. -/
def ensureUser (s : Store) (name password : String) (tenantId : Nat)
    (isTNew : Bool) : Store × UserRow × Bool :=
  let probe := if isTNew then none else
    s.users.find? (fun u => u.name == name && u.tenantId == tenantId)
  match probe with
  | some u => (s, u, false)
  | none =>
    let u : UserRow := { id := s.nextId, name := name, password := some password,
                         tenantId := tenantId }
    ({ s with users := s.users ++ [u], nextId := s.nextId + 1 }, u, true)

/-- Step 4 of `init_db`: ensure the super-role exists; the probe is
skipped when the tenant is new. -/
def ensureRole (s : Store) (name : String) (tenantId : Nat) (isTNew : Bool) :
    Store × RoleRow × Bool :=
  let probe := if isTNew then none else
    s.roles.find? (fun r => r.name == name && r.tenantId == tenantId)
  match probe with
  | some r => (s, r, false)
  | none =>
    let r : RoleRow := { id := s.nextId, name := name, tenantId := tenantId }
    ({ s with roles := s.roles ++ [r], nextId := s.nextId + 1 }, r, true)

/-- Step 5 of `init_db`: walk the permission catalog in order, probing
only when the tenant pre-existed, and accumulate per-permission
newly-created flags and the overall `has_new_perms` flag. -/
def ensurePerms (s : Store) (tenantId : Nat) (isTNew : Bool) :
    List (String × String) → Store × List (String × PermRow × Bool) × Bool
  | [] => (s, [], false)
  | (name, description) :: rest =>
    let probe := if isTNew then none else
      s.perms.find? (fun p => p.name == name && p.tenantId == tenantId)
    match probe with
    | some p =>
      let r := ensurePerms s tenantId isTNew rest
      (r.1, (name, p, false) :: r.2.1, r.2.2)
    | none =>
      let p : PermRow := { id := s.nextId, name := name,
                           description := some description, tenantId := tenantId }
      let s' := { s with perms := s.perms ++ [p], nextId := s.nextId + 1 }
      let r := ensurePerms s' tenantId isTNew rest
      (r.1, (name, p, true) :: r.2.1, true)

/-- Closed form of the permission rows step 5 creates when the enclosing
tenant is new: one row per catalog entry, with consecutive ids starting
at `n`. -/
def permRowsFrom (n tid : Nat) : List (String × String) → List PermRow
  | [] => []
  | (name, d) :: rest => ⟨n, name, some d, tid⟩ :: permRowsFrom (n + 1) tid rest

/-- Step 6 of `init_db`: unconditionally associate the user with the role
and the role with every catalog permission (set-valued, so idempotent). -/
def addAssociations (s : Store) (userId roleId : Nat)
    (permRows : List (String × PermRow × Bool)) : Store :=
  let s₁ := { s with user2role := addAssoc s.user2role (userId, roleId) }
  permRows.foldl (fun acc e =>
    { acc with perm2role := addAssoc acc.perm2role (e.2.1.id, roleId) }) s₁

/-- `init_db` (`db/init_db.py`): ensure application, tenant, super-user,
super-role and every catalog permission exist, wire the associations, and
commit once; a constraint violation at commit aborts the whole
transaction. -/
def init_db (s : Store) (args : InitArgs) :
    Option (Store × InitDbResult) :=
  let ra := ensureApp s args.app
  let rt := ensureTenant ra.1 args.tenant ra.2.1.id ra.2.2
  let ru := ensureUser rt.1 args.user args.password rt.2.1.id rt.2.2
  let rr := ensureRole ru.1 args.role rt.2.1.id rt.2.2
  let rp := ensurePerms rr.1 rt.2.1.id rt.2.2 args.perms
  let s₆ := addAssociations rp.1 ru.2.1.id rr.2.1.id rp.2.1
  match commitStore s₆ with
  | some sFinal =>
    some (sFinal, { app := ra.2.1, isAppNew := ra.2.2, tenant := rt.2.1,
                    isTNew := rt.2.2, user := ru.2.1, isUNew := ru.2.2,
                    role := rr.2.1, isRNew := rr.2.2, perms := rp.2.1,
                    hasNewPerms := rp.2.2 })
  | none => none

/-! ### Spec-side reading of the permission resolver -/

/-- Union-over-roles reading of the resolver, phrased the way the spec
phrases it: the union, over the user's assigned roles, of each role's
permission names. -/
def specResolve (u : UserObj) : Finset String :=
  u.roles.toFinset.biUnion (fun r => (r.perms.map PermObj.name).toFinset)

/-! ### Concrete scenarios used by the theorems below -/

/-- Two applications, tenant `aaa` and a sibling `sib` under `app1`, and a
tenant `bbb` that lives only under `app2`. -/
def exStoreC2 : Store :=
  { apps := [⟨1, "app1", none⟩, ⟨2, "app2", none⟩],
    tenants := [⟨10, "aaa", none, 1⟩, ⟨11, "sib", none, 1⟩, ⟨20, "bbb", none, 2⟩],
    nextId := 30 }

/-- One application with two tenants; a role named `adm` exists in the
first tenant only. -/
def exStoreC3 : Store :=
  { apps := [⟨1, "app1", none⟩],
    tenants := [⟨10, "t1", none, 1⟩, ⟨20, "t2", none, 1⟩],
    roles := [⟨30, "adm", 10⟩],
    nextId := 40 }

/-- One application with two tenants; a permission named `x:r` exists in
the first tenant only. -/
def exStoreC9 : Store :=
  { apps := [⟨1, "app1", none⟩],
    tenants := [⟨10, "t1", none, 1⟩, ⟨20, "t2", none, 1⟩],
    perms := [⟨30, "x:r", none, 10⟩],
    nextId := 40 }

/-- The management application and tenant with a user `alice` that has no
roles (so an empty live permission set). -/
def exStoreC1 : Store :=
  { apps := [⟨0, "management", none⟩],
    tenants := [⟨1, "sec-ma", none, 0⟩],
    users := [⟨2, "alice", some "h", false, 1⟩],
    nextId := 3 }

/-- A non-management application `app1` with tenant `t1`, a user `bob`
holding role `r` which grants permission `x:r`.  There is no management
application at all, so no management user named `bob`. -/
def exStoreC7 : Store :=
  { apps := [⟨0, "app1", none⟩],
    tenants := [⟨1, "t1", none, 0⟩],
    users := [⟨2, "bob", some "h", false, 1⟩],
    roles := [⟨3, "r", 1⟩],
    perms := [⟨4, "x:r", none, 1⟩],
    user2role := [(2, 3)],
    perm2role := [(4, 3)],
    nextId := 5 }

/-- The user row shared by the association scenarios. -/
def exUserC8 : UserRow := ⟨2, "bob", some "h", false, 10⟩

/-- Role 7 exists in the tenant but is not assigned to the user. -/
def exStoreC8a : Store :=
  { apps := [⟨1, "app1", none⟩], tenants := [⟨10, "t1", none, 1⟩],
    users := [exUserC8], roles := [⟨7, "r7", 10⟩], nextId := 20 }

/-- Role 7 does not exist at all. -/
def exStoreC8b : Store :=
  { apps := [⟨1, "app1", none⟩], tenants := [⟨10, "t1", none, 1⟩],
    users := [exUserC8], nextId := 20 }

/-- Role 7 exists and is already assigned to the user. -/
def exStoreC8c : Store :=
  { apps := [⟨1, "app1", none⟩], tenants := [⟨10, "t1", none, 1⟩],
    users := [exUserC8], roles := [⟨7, "r7", 10⟩], user2role := [(2, 7)],
    nextId := 20 }

/-- The role row shared by the role↔permission association scenarios. -/
def exRoleC8 : RoleRow := ⟨9, "r9", 10⟩

/-- Permission 8 exists in the tenant but is not assigned to role 9. -/
def exStoreC8d : Store :=
  { apps := [⟨1, "app1", none⟩], tenants := [⟨10, "t1", none, 1⟩],
    roles := [exRoleC8], perms := [⟨8, "x:r", none, 10⟩], nextId := 20 }

/-- Permission 8 does not exist at all. -/
def exStoreC8e : Store :=
  { apps := [⟨1, "app1", none⟩], tenants := [⟨10, "t1", none, 1⟩],
    roles := [exRoleC8], nextId := 20 }

/-- Permission 8 exists and is already assigned to role 9. -/
def exStoreC8f : Store :=
  { apps := [⟨1, "app1", none⟩], tenants := [⟨10, "t1", none, 1⟩],
    roles := [exRoleC8], perms := [⟨8, "x:r", none, 10⟩],
    perm2role := [(8, 9)], nextId := 20 }

/-- Small bootstrap argument tuple used by the witnesses. -/
def exArgs : InitArgs :=
  { app := "mgmt", tenant := "root", perms := [("x:r", "desc")],
    user := "admin", password := "h", role := "super" }

/-- The store produced by running the bootstrap on an empty database with
`exArgs`. -/
def exState1 : Store :=
  { apps := [⟨0, "mgmt", none⟩],
    tenants := [⟨1, "root", none, 0⟩],
    users := [⟨2, "admin", some "h", false, 1⟩],
    roles := [⟨3, "super", 1⟩],
    perms := [⟨4, "x:r", some "desc", 1⟩],
    user2role := [(2, 3)],
    perm2role := [(4, 3)],
    nextId := 5 }

/-- The result record produced by that bootstrap run. -/
def exResult1 : InitDbResult :=
  { app := ⟨0, "mgmt", none⟩, isAppNew := true,
    tenant := ⟨1, "root", none, 0⟩, isTNew := true,
    user := ⟨2, "admin", some "h", false, 1⟩, isUNew := true,
    role := ⟨3, "super", 1⟩, isRNew := true,
    perms := [("x:r", ⟨4, "x:r", some "desc", 1⟩, true)],
    hasNewPerms := true }

/-! ## Theorems -/

/-- Folding name insertion over a permission list accumulates the set
union of the names. -/
lemma foldl_insert_names (perms : List PermObj) (acc : Finset String) :
    perms.foldl (fun a p => insert p.name a) acc
      = acc ∪ (perms.map PermObj.name).toFinset := by
  induction perms generalizing acc with
  | nil => simp
  | cons p ps ih =>
    simp only [List.foldl_cons, ih, List.map_cons, List.toFinset_cons]
    ext x
    simp only [Finset.mem_union, Finset.mem_insert, List.mem_toFinset]
    tauto

/-- The outer fold of `get_permissions` accumulates the union over roles. -/
lemma get_permissions_foldl (roles : List RoleObj) (acc : Finset String) :
    roles.foldl (fun acc r => r.perms.foldl (fun a p => insert p.name a) acc) acc
      = acc ∪ roles.toFinset.biUnion (fun r => (r.perms.map PermObj.name).toFinset) := by
  induction roles generalizing acc with
  | nil => simp
  | cons r rs ih =>
    rw [List.foldl_cons, ih, foldl_insert_names, List.toFinset_cons,
      Finset.biUnion_insert]
    ext x
    simp only [Finset.mem_union]
    tauto

/-- C4: for every user, `get_permissions` equals the union over the user's
assigned roles of each role's assigned permission names; it is the empty
set when the user has no roles; and it is independent of the order in
which the roles are traversed (set semantics). -/
theorem get_permissions_is_union (u : UserObj) :
    u.get_permissions = specResolve u
  ∧ (u.roles = [] → u.get_permissions = ∅)
  ∧ (∀ v : UserObj, u.roles.Perm v.roles → u.get_permissions = v.get_permissions) := by
  refine ⟨?_, ?_, ?_⟩
  · rw [UserObj.get_permissions, specResolve, get_permissions_foldl]
    simp
  · intro h
    rw [UserObj.get_permissions, h]
    simp
  · intro v hp
    rw [UserObj.get_permissions, UserObj.get_permissions,
      get_permissions_foldl, get_permissions_foldl,
      List.toFinset_eq_of_perm _ _ hp]

/-- Witness for C4: two users whose role lists are permutations of each
other resolve to the same permission set. -/
theorem get_permissions_is_union_witness :
    (UserObj.mk [⟨[⟨"a"⟩]⟩, ⟨[⟨"b"⟩]⟩]).get_permissions
      = (UserObj.mk [⟨[⟨"b"⟩]⟩, ⟨[⟨"a"⟩]⟩]).get_permissions :=
  (get_permissions_is_union _).2.2 _ (by decide)

/-- C2 (counterevidence): renaming tenant `aaa` of `app1` to `sib` (a
sibling slug) fails with the 409 `duplicate_tenant`, as the claim says;
but renaming it to `bbb`, a slug used only by a tenant of `app2`, also
fails with the 409, where the claim says it must succeed — the duplicate
probe of `edit_tenant` has no application filter.  A globally unused slug
does succeed. -/
theorem edit_tenant_cross_application_conflict :
    (edit_tenant exStoreC2 "app1" "aaa" "sib").1 = .duplicateTenant "sib"
  ∧ (edit_tenant exStoreC2 "app1" "aaa" "bbb").1 = .duplicateTenant "bbb"
  ∧ (edit_tenant exStoreC2 "app1" "aaa" "ccc").1 = .ok "ccc" := by
  refine ⟨by decide, by decide, by decide⟩

/-- C3 (counterevidence): creating a role named `adm` in tenant 20, while
tenant 10 already holds a role of that name, passes the tenant-scoped
probe but violates the bare-column `unique=True` constraint on
`Role.name` at commit, surfacing as a 500 with the transaction rolled
back — the state with two same-named roles in different tenants is
unreachable, contrary to the documented per-tenant-only uniqueness. -/
theorem create_role_cross_tenant_rejected :
    (create_role exStoreC3 1 20 "adm").1 = .internalError
  ∧ (create_role exStoreC3 1 20 "adm").2 = exStoreC3 := by
  refine ⟨by decide, by decide⟩

/-- C9 (counterevidence): a write whose commit raises the persisted
uniqueness-constraint violation (permission `x:r` already exists in a
sibling tenant, so the scoped probe passes but the global constraint on
`Permission.name` fires) is answered by the generic exception handler
with a 500 internal error, not translated to a 409 Conflict. -/
theorem create_permission_lost_race_internal_error :
    (create_permission exStoreC9 1 20 "x:r").1 = .internalError
  ∧ (create_permission exStoreC9 1 20 "x:r").1 ≠ .duplicate "x:r" := by
  refine ⟨by decide, by decide⟩

/-- A list with `scalar_one` outcome `.one a` is exactly `[a]`. -/
lemma scalarOne_eq_one {α : Type} {l : List α} {a : α}
    (h : scalarOne l = .one a) : l = [a] := by
  match l with
  | [] => simp [scalarOne] at h
  | [x] => simp [scalarOne] at h; rw [h]
  | x :: y :: rest => simp [scalarOne] at h

/-- Inversion of a successful `get_current_user` run: every check on the
way to the success branch must have passed, and the context is anchored
at the management application and tenant. -/
lemma get_current_user_ok_inv {s : Store} {R : Finset String}
    {payload : TokenPayload} {ctx : UserCtx}
    (h : get_current_user s R (some payload) = .ok ctx) :
    ∃ name u, payload.sub = some name ∧ name ≠ "" ∧
      payload.scopes.toFinset ≠ ∅ ∧
      scalarOne (select_user_by_slug_name s MANAGEMENT_APP MANAGEMENT_TENANT name) = .one u ∧
      u.name = name ∧ u.suspended = false ∧
      R ⊆ payload.scopes.toFinset ∧ R ⊆ userPermissions s u ∧
      ctx = ⟨MANAGEMENT_APP, MANAGEMENT_TENANT, u⟩ := by
  rcases hsub : payload.sub with _ | name
  · simp [get_current_user, hsub] at h
  · by_cases hne : name = ""
    · simp [get_current_user, hsub, hne] at h
    · by_cases hemp : payload.scopes.toFinset = ∅
      · simp [get_current_user, hsub, hne, hemp] at h
      · rcases hone : scalarOne (select_user_by_slug_name s MANAGEMENT_APP
            MANAGEMENT_TENANT name) with u | _ | _
        · by_cases hsp : u.suspended = true
          · simp [get_current_user, hsub, hne, hemp, hone, hsp] at h
          · by_cases h1 : R ⊆ payload.scopes.toFinset
            · by_cases h2 : R ⊆ userPermissions s u
              · simp [get_current_user, hsub, hne, hemp, hone, hsp, h1, h2] at h
                have hname : u.name = name := by
                  have hmem : u ∈ select_user_by_slug_name s MANAGEMENT_APP
                      MANAGEMENT_TENANT name := by
                    rw [scalarOne_eq_one hone]
                    exact List.mem_singleton.mpr rfl
                  have := (List.mem_filter.mp hmem).2
                  simp only [Bool.and_eq_true, beq_iff_eq] at this
                  exact this.1
                exact ⟨name, u, rfl, hne, hemp, hone, hname,
                  (by simpa using hsp), h1, h2, h.symm⟩
              · simp [get_current_user, hsub, hne, hemp, hone, hsp, h1, h2] at h
            · simp [get_current_user, hsub, hne, hemp, hone, hsp, h1] at h
        · simp [get_current_user, hsub, hne, hemp, hone] at h
        · simp [get_current_user, hsub, hne, hemp, hone] at h

/-- C1: an authenticated request succeeds only when the required
permission set is a subset of the embedded token scopes and a subset of
the subject's live permission set; and with a token that decoded (so its
signature verified and it is unexpired) whose scopes cover the required
set, a required permission missing from the live set yields the
`no-permission` 401 error. -/
theorem get_current_user_double_subset (s : Store) (R : Finset String)
    (payload : TokenPayload) :
    (∀ ctx, get_current_user s R (some payload) = .ok ctx →
       R ⊆ payload.scopes.toFinset ∧ R ⊆ userPermissions s ctx.user)
  ∧ (∀ name u, payload.sub = some name → name ≠ "" →
       scalarOne (select_user_by_slug_name s MANAGEMENT_APP MANAGEMENT_TENANT name) = .one u →
       u.suspended = false → R ⊆ payload.scopes.toFinset →
       ¬ R ⊆ userPermissions s u →
       get_current_user s R (some payload) = .err .noPermission) := by
  constructor
  · intro ctx h
    obtain ⟨name, u, _, _, _, _, _, _, h1, h2, hctx⟩ := get_current_user_ok_inv h
    subst hctx
    exact ⟨h1, h2⟩
  · intro name u hsub hne hone hsusp hscope hperm
    have hsc : payload.scopes.toFinset ≠ ∅ := by
      rcases Finset.not_subset.mp hperm with ⟨a, haR, _⟩
      intro hc
      have := hscope haR
      rw [hc] at this
      simp at this
    simp [get_current_user, hsub, hne, hsc, hone, hsusp, hscope, hperm]

/-- Witness for C1: in a management store where `alice` has no roles (an
empty live permission set), a verified token embedding scope `a:r` is
rejected with the `no-permission` 401 on an endpoint requiring `a:r`. -/
theorem get_current_user_double_subset_witness :
    get_current_user exStoreC1 {"a:r"} (some ⟨some "alice", ["a:r"]⟩)
      = .err .noPermission :=
  (get_current_user_double_subset exStoreC1 {"a:r"} ⟨some "alice", ["a:r"]⟩).2
    "alice" ⟨2, "alice", some "h", false, 1⟩ rfl (by decide) (by decide)
    (by decide) (by decide) (by decide)

/-- C10: whatever application/tenant pair a token was issued for, the
subject of an authenticated request is resolved exclusively against the
management application and tenant: on success the context is anchored
there and its user is the management-tenant user carrying the token's
subject name; and when no management-tenant user with that name exists,
the request fails with `invalid-credentials` (even if a user of that name
exists elsewhere). -/
theorem get_current_user_management_anchor (s : Store) (R : Finset String)
    (payload : TokenPayload) :
    (∀ ctx, get_current_user s R (some payload) = .ok ctx →
       ctx.appSlug = MANAGEMENT_APP ∧ ctx.tnSlug = MANAGEMENT_TENANT ∧
       payload.sub = some ctx.user.name ∧
       scalarOne (select_user_by_slug_name s MANAGEMENT_APP MANAGEMENT_TENANT
         ctx.user.name) = .one ctx.user)
  ∧ (∀ name, payload.sub = some name → name ≠ "" →
       payload.scopes.toFinset ≠ ∅ →
       select_user_by_slug_name s MANAGEMENT_APP MANAGEMENT_TENANT name = [] →
       get_current_user s R (some payload) = .err .invalidCredentials) := by
  constructor
  · intro ctx h
    obtain ⟨name, u, hsub, _, _, hone, hname, _, _, _, hctx⟩ :=
      get_current_user_ok_inv h
    subst hctx
    refine ⟨rfl, rfl, ?_, ?_⟩
    · rw [hsub]
      simp [hname]
    · simpa [hname] using hone
  · intro name hsub hne hemp hnone
    simp [get_current_user, hsub, hne, hemp, hnone, scalarOne]

/-- Witness for C10: `bob` exists only in tenant `t1` of `app1`; the
per-tenant login endpoint for that tenant happily issues him a token with
scope `x:r`, but presenting that token to `get_current_user` fails with
`invalid-credentials` because no management-tenant user named `bob`
exists. -/
theorem get_current_user_management_anchor_witness :
    common_login exStoreC7 true (fun p h => p == "pw" && h == "h")
      ⟨"bob", "pw", []⟩ "app1" "t1" = .token "bob" {"x:r"}
  ∧ get_current_user exStoreC7 ∅ (some ⟨some "bob", ["x:r"]⟩)
      = .err .invalidCredentials :=
  ⟨by decide,
    (get_current_user_management_anchor exStoreC7 ∅ ⟨some "bob", ["x:r"]⟩).2
      "bob" rfl (by decide) (by decide) (by decide)⟩

/-- C7: at token issuance, when the caller requested no scopes the granted
scope set is exactly the subject's live permission set at that moment;
when the caller requested specific scopes, issuance fails unless they are
a subset of the live permission set, and otherwise grants exactly the
requested set. -/
theorem common_login_scope_grant (s : Store) (verify : String → String → Bool)
    (form : LoginForm) (appSlug tnSlug : String) (u : UserRow) (stored : String)
    (hu : form.username ≠ "")
    (hone : scalarOne (select_user_by_slug_name s appSlug tnSlug form.username) = .one u)
    (hsusp : u.suspended = false)
    (hpw : u.password = some stored)
    (hv : verify form.password stored = true) :
    (form.scopes.toFinset = ∅ →
       common_login s true verify form appSlug tnSlug
         = .token u.name (userPermissions s u))
  ∧ (form.scopes.toFinset ≠ ∅ → ¬ form.scopes.toFinset ⊆ userPermissions s u →
       common_login s true verify form appSlug tnSlug = .err .invalidCredentials)
  ∧ (form.scopes.toFinset ≠ ∅ → form.scopes.toFinset ⊆ userPermissions s u →
       common_login s true verify form appSlug tnSlug
         = .token u.name form.scopes.toFinset) := by
  refine ⟨fun h1 => ?_, fun h1 h2 => ?_, fun h1 h2 => ?_⟩
  · simp [common_login, hu, hone, hsusp, hpw, hv, h1]
  · simp [common_login, hu, hone, hsusp, hpw, hv, h1, h2]
  · simp [common_login, hu, hone, hsusp, hpw, hv, h1, h2]

/-- Witness for C7: logging `bob` in with no requested scopes grants
exactly his live permission set, which is the single permission `x:r`. -/
theorem common_login_scope_grant_witness :
    common_login exStoreC7 true (fun p h => p == "pw" && h == "h")
      ⟨"bob", "pw", []⟩ "app1" "t1" = .token "bob" {"x:r"} := by
  have h := (common_login_scope_grant exStoreC7
    (fun p h => p == "pw" && h == "h") ⟨"bob", "pw", []⟩ "app1" "t1"
    ⟨2, "bob", some "h", false, 1⟩ "h"
    (by decide) (by decide) rfl rfl (by decide)).1 (by decide)
  exact h.trans (by decide)

/-- C8 (counterexample): removing role id 7 from `bob` produces the very
same plain 404 `missing roles` response whether role 7 exists but is not
assigned to him or does not exist at all, and removing permission id 8
from role 9 likewise produces the same plain 404 `missing permissions`
response whether permission 8 exists unassigned or not at all — in
neither association family is the error of a kind distinct from the
entity's not-found error. -/
theorem remove_missing_association_not_distinct :
    (remove_roles_from_user exStoreC8a "app1" "t1" exUserC8 [7]).1 = .missingRoles {7}
  ∧ (remove_roles_from_user exStoreC8b "app1" "t1" exUserC8 [7]).1 = .missingRoles {7}
  ∧ (remove_roles_from_user exStoreC8a "app1" "t1" exUserC8 [7]).1
      = (remove_roles_from_user exStoreC8b "app1" "t1" exUserC8 [7]).1
  ∧ (remove_permissions_from_role exStoreC8d "app1" "t1" exRoleC8 [8]).1
      = .missingPerms {8}
  ∧ (remove_permissions_from_role exStoreC8e "app1" "t1" exRoleC8 [8]).1
      = .missingPerms {8}
  ∧ (remove_permissions_from_role exStoreC8d "app1" "t1" exRoleC8 [8]).1
      = (remove_permissions_from_role exStoreC8e "app1" "t1" exRoleC8 [8]).1 := by
  refine ⟨by decide, by decide, by decide, by decide, by decide, by decide⟩

/-- C8 (amended): for both association families — User↔Role and
Role↔Permission — adding an already-present association succeeds and
leaves both the association set and the store unchanged; removing ids any
of which is not currently associated fails with the plain 404 listing the
missing ids — the same response whether or not those ids denote existing
entities. -/
theorem association_mutation_amended (s : Store) (appSlug tnSlug : String)
    (user : UserRow) (role : RoleRow) (perm : PermRow) (data : List Nat) :
    (scalarOne (select_role_by_slug_id s appSlug tnSlug role.id) = .one role →
     (user.id, role.id) ∈ s.user2role → s.constraintsOk = true →
     add_role_to_user s appSlug tnSlug user role.id
       = (.ok ((loadRoles s user).map (·.id)).toFinset, s))
  ∧ (data.toFinset \ ((s.roles.filter (fun r =>
        tenantPathMatches s appSlug tnSlug r.tenantId &&
        data.contains r.id && s.user2role.contains (user.id, r.id))).map (·.id)).toFinset ≠ ∅ →
     remove_roles_from_user s appSlug tnSlug user data
       = (.missingRoles (data.toFinset \ ((s.roles.filter (fun r =>
           tenantPathMatches s appSlug tnSlug r.tenantId &&
           data.contains r.id && s.user2role.contains (user.id, r.id))).map (·.id)).toFinset), s))
  ∧ (scalarOne (select_perm_by_slug_id s appSlug tnSlug perm.id) = .one perm →
     (perm.id, role.id) ∈ s.perm2role → s.constraintsOk = true →
     add_permission_to_role s appSlug tnSlug role perm.id
       = (.ok ((loadPerms s role).map (·.id)).toFinset, s))
  ∧ (data.toFinset \ ((s.perms.filter (fun p =>
        tenantPathMatches s appSlug tnSlug p.tenantId &&
        data.contains p.id && s.perm2role.contains (p.id, role.id))).map (·.id)).toFinset ≠ ∅ →
     remove_permissions_from_role s appSlug tnSlug role data
       = (.missingPerms (data.toFinset \ ((s.perms.filter (fun p =>
           tenantPathMatches s appSlug tnSlug p.tenantId &&
           data.contains p.id && s.perm2role.contains (p.id, role.id))).map (·.id)).toFinset), s)) := by
  refine ⟨?_, ?_, ?_, ?_⟩
  · intro hone hmem hok
    have haddeq : addAssoc s.user2role (user.id, role.id) = s.user2role := by
      unfold addAssoc
      rw [if_pos hmem]
    simp [add_role_to_user, hone, haddeq, commitStore, hok]
  · intro hmiss
    simp only [remove_roles_from_user]
    rw [if_pos hmiss]
  · intro hone hmem hok
    have haddeq : addAssoc s.perm2role (perm.id, role.id) = s.perm2role := by
      unfold addAssoc
      rw [if_pos hmem]
    simp [add_permission_to_role, hone, haddeq, commitStore, hok]
  · intro hmiss
    simp only [remove_permissions_from_role]
    rw [if_pos hmiss]

/-- Witness for C8 (amended): re-adding role 7 to `bob`, who already holds
it, succeeds and changes nothing, and removing the unassigned role 7
yields the plain 404 listing it; re-adding permission 8 to role 9, which
already holds it, succeeds and changes nothing, and removing the
unassigned permission 8 yields the plain 404 listing it. -/
theorem association_mutation_amended_witness :
    add_role_to_user exStoreC8c "app1" "t1" exUserC8 7 = (.ok {7}, exStoreC8c)
  ∧ remove_roles_from_user exStoreC8a "app1" "t1" exUserC8 [7]
      = (.missingRoles {7}, exStoreC8a)
  ∧ add_permission_to_role exStoreC8f "app1" "t1" exRoleC8 8
      = (.ok {8}, exStoreC8f)
  ∧ remove_permissions_from_role exStoreC8d "app1" "t1" exRoleC8 [8]
      = (.missingPerms {8}, exStoreC8d) := by
  refine ⟨?_, ?_, ?_, ?_⟩
  · have h := (association_mutation_amended exStoreC8c "app1" "t1" exUserC8
      ⟨7, "r7", 10⟩ ⟨8, "x:r", none, 10⟩ []).1 (by decide) (by decide) (by decide)
    exact h.trans (by decide)
  · have h := (association_mutation_amended exStoreC8a "app1" "t1" exUserC8
      ⟨7, "r7", 10⟩ ⟨8, "x:r", none, 10⟩ [7]).2.1 (by decide)
    exact h.trans (by decide)
  · have h := (association_mutation_amended exStoreC8f "app1" "t1" exUserC8
      exRoleC8 ⟨8, "x:r", none, 10⟩ []).2.2.1 (by decide) (by decide) (by decide)
    exact h.trans (by decide)
  · have h := (association_mutation_amended exStoreC8d "app1" "t1" exUserC8
      exRoleC8 ⟨8, "x:r", none, 10⟩ [8]).2.2.2 (by decide)
    exact h.trans (by decide)

/-! ### Lemmas about the bootstrap phases -/

/-- An added edge is a member of the association list. -/
lemma mem_addAssoc_self (l : List (Nat × Nat)) (a : Nat × Nat) :
    a ∈ addAssoc l a := by
  unfold addAssoc
  split
  · assumption
  · simp

/-- Adding a present edge changes nothing. -/
lemma addAssoc_of_mem {l : List (Nat × Nat)} {a : Nat × Nat} (h : a ∈ l) :
    addAssoc l a = l := by
  unfold addAssoc
  rw [if_pos h]

/-- Membership persists through an add. -/
lemma mem_addAssoc_of_mem {l : List (Nat × Nat)} {a b : Nat × Nat}
    (h : b ∈ l) : b ∈ addAssoc l a := by
  unfold addAssoc
  split
  · exact h
  · exact List.mem_append_left _ h

/-- The role-permission association fold touches only `perm2role`. -/
lemma foldPermAssoc_fields (l : List (String × PermRow × Bool)) (rid : Nat) :
    ∀ σ : Store,
    (l.foldl (fun acc e =>
        { acc with perm2role := addAssoc acc.perm2role (e.2.1.id, rid) }) σ).apps = σ.apps ∧
    (l.foldl (fun acc e =>
        { acc with perm2role := addAssoc acc.perm2role (e.2.1.id, rid) }) σ).tenants = σ.tenants ∧
    (l.foldl (fun acc e =>
        { acc with perm2role := addAssoc acc.perm2role (e.2.1.id, rid) }) σ).users = σ.users ∧
    (l.foldl (fun acc e =>
        { acc with perm2role := addAssoc acc.perm2role (e.2.1.id, rid) }) σ).roles = σ.roles ∧
    (l.foldl (fun acc e =>
        { acc with perm2role := addAssoc acc.perm2role (e.2.1.id, rid) }) σ).perms = σ.perms ∧
    (l.foldl (fun acc e =>
        { acc with perm2role := addAssoc acc.perm2role (e.2.1.id, rid) }) σ).nextId = σ.nextId ∧
    (l.foldl (fun acc e =>
        { acc with perm2role := addAssoc acc.perm2role (e.2.1.id, rid) }) σ).user2role = σ.user2role := by
  induction l with
  | nil => intro σ; simp
  | cons e es ih =>
    intro σ
    simp only [List.foldl_cons]
    exact ih _

/-- Old edges persist through the fold, and every listed permission ends
associated with the role. -/
lemma foldPermAssoc_mem (l : List (String × PermRow × Bool)) (rid : Nat) :
    ∀ σ : Store,
    (∀ x ∈ σ.perm2role, x ∈ (l.foldl (fun acc e =>
        { acc with perm2role := addAssoc acc.perm2role (e.2.1.id, rid) }) σ).perm2role) ∧
    (∀ e ∈ l, (e.2.1.id, rid) ∈ (l.foldl (fun acc e =>
        { acc with perm2role := addAssoc acc.perm2role (e.2.1.id, rid) }) σ).perm2role) := by
  induction l with
  | nil => intro σ; simp
  | cons e es ih =>
    intro σ
    simp only [List.foldl_cons]
    constructor
    · intro x hx
      exact (ih _).1 x (mem_addAssoc_of_mem hx)
    · intro e' he'
      rcases List.mem_cons.mp he' with rfl | he'
      · exact (ih _).1 _ (mem_addAssoc_self _ _)
      · exact (ih _).2 e' he'

/-- When every listed edge is already present the fold is a no-op. -/
lemma foldPermAssoc_noop (l : List (String × PermRow × Bool)) (rid : Nat) :
    ∀ σ : Store, (∀ e ∈ l, (e.2.1.id, rid) ∈ σ.perm2role) →
    l.foldl (fun acc e =>
      { acc with perm2role := addAssoc acc.perm2role (e.2.1.id, rid) }) σ = σ := by
  induction l with
  | nil => intro σ _; rfl
  | cons e es ih =>
    intro σ hσ
    simp only [List.foldl_cons]
    rw [addAssoc_of_mem (hσ e (List.mem_cons_self e es))]
    exact ih σ (fun e' he' => hσ e' (List.mem_cons_of_mem e he'))

/-- Field bookkeeping for step 6 of the bootstrap. -/
lemma addAssociations_fields (s : Store) (uid rid : Nat)
    (l : List (String × PermRow × Bool)) :
    (addAssociations s uid rid l).apps = s.apps ∧
    (addAssociations s uid rid l).tenants = s.tenants ∧
    (addAssociations s uid rid l).users = s.users ∧
    (addAssociations s uid rid l).roles = s.roles ∧
    (addAssociations s uid rid l).perms = s.perms ∧
    (addAssociations s uid rid l).nextId = s.nextId ∧
    (addAssociations s uid rid l).user2role = addAssoc s.user2role (uid, rid) := by
  unfold addAssociations
  exact foldPermAssoc_fields l rid _

/-- After step 6 the user-role edge and every permission-role edge are
present. -/
lemma addAssociations_mem (s : Store) (uid rid : Nat)
    (l : List (String × PermRow × Bool)) :
    (uid, rid) ∈ (addAssociations s uid rid l).user2role ∧
    ∀ e ∈ l, (e.2.1.id, rid) ∈ (addAssociations s uid rid l).perm2role := by
  constructor
  · rw [(addAssociations_fields s uid rid l).2.2.2.2.2.2]
    exact mem_addAssoc_self _ _
  · exact (foldPermAssoc_mem l rid _).2

/-- Step 6 is a no-op when all its edges already exist. -/
lemma addAssociations_noop (s : Store) (uid rid : Nat)
    (l : List (String × PermRow × Bool))
    (h1 : (uid, rid) ∈ s.user2role)
    (h2 : ∀ e ∈ l, (e.2.1.id, rid) ∈ s.perm2role) :
    addAssociations s uid rid l = s := by
  unfold addAssociations
  rw [addAssoc_of_mem h1]
  exact foldPermAssoc_noop l rid s h2

/-- What step 1 guarantees: afterwards the application probe finds exactly
the returned row, no other table moved, and a created row took the next
id. -/
lemma ensureApp_spec {s : Store} {slug : String} {s' : Store} {a : AppRow}
    {b : Bool} (h : ensureApp s slug = (s', a, b)) :
    s'.apps.find? (fun x => x.slug == slug) = some a ∧
    s'.tenants = s.tenants ∧ s'.users = s.users ∧ s'.roles = s.roles ∧
    s'.perms = s.perms ∧ s'.user2role = s.user2role ∧
    s'.perm2role = s.perm2role ∧ s.nextId ≤ s'.nextId ∧
    (b = true → a.id = s.nextId) := by
  unfold ensureApp at h
  rcases hf : s.apps.find? (fun x => x.slug == slug) with _ | a0 <;> rw [hf] at h
  · obtain ⟨h1, h2, h3⟩ := by simpa [Prod.mk.injEq] using h
    subst h1
    subst h2
    subst h3
    refine ⟨?_, rfl, rfl, rfl, rfl, rfl, rfl, by simp, fun _ => rfl⟩
    rw [List.find?_append, hf]
    simp
  · obtain ⟨h1, h2, h3⟩ := by simpa [Prod.mk.injEq] using h
    subst h1
    subst h2
    subst h3
    exact ⟨hf, rfl, rfl, rfl, rfl, rfl, rfl, le_refl _, fun hb => by cases hb⟩

/-- What step 2 guarantees, under the freshness fact that a brand-new
application id is referenced by no existing tenant. -/
lemma ensureTenant_spec {s : Store} {slug : String} {appId : Nat}
    {isAppNew : Bool} {s' : Store} {t : TenantRow} {b : Bool}
    (h : ensureTenant s slug appId isAppNew = (s', t, b))
    (hfresh : isAppNew = true → ∀ x ∈ s.tenants, x.applicationId ≠ appId) :
    s'.tenants.find? (fun x => x.slug == slug && x.applicationId == appId) = some t ∧
    s'.apps = s.apps ∧ s'.users = s.users ∧ s'.roles = s.roles ∧
    s'.perms = s.perms ∧ s'.user2role = s.user2role ∧
    s'.perm2role = s.perm2role ∧ s.nextId ≤ s'.nextId ∧
    (b = true → t.id = s.nextId) := by
  unfold ensureTenant at h
  cases isAppNew with
  | true =>
    simp only [if_true] at h
    obtain ⟨h1, h2, h3⟩ := by simpa [Prod.mk.injEq] using h
    subst h1
    subst h2
    subst h3
    refine ⟨?_, rfl, rfl, rfl, rfl, rfl, rfl, by simp, fun _ => rfl⟩
    rw [List.find?_append]
    rw [List.find?_eq_none.mpr (fun x hx => by simp [hfresh rfl x hx])]
    simp
  | false =>
    simp only [Bool.false_eq_true, if_false] at h
    rcases hf : s.tenants.find? (fun x => x.slug == slug && x.applicationId == appId)
      with _ | t0 <;> rw [hf] at h
    · obtain ⟨h1, h2, h3⟩ := by simpa [Prod.mk.injEq] using h
      subst h1
      subst h2
      subst h3
      refine ⟨?_, rfl, rfl, rfl, rfl, rfl, rfl, by simp, fun _ => rfl⟩
      rw [List.find?_append, hf]
      simp
    · obtain ⟨h1, h2, h3⟩ := by simpa [Prod.mk.injEq] using h
      subst h1
      subst h2
      subst h3
      exact ⟨hf, rfl, rfl, rfl, rfl, rfl, rfl, le_refl _, fun hb => by cases hb⟩

/-- What step 3 guarantees, under the freshness fact that a brand-new
tenant id is referenced by no existing user. -/
lemma ensureUser_spec {s : Store} {name password : String} {tenantId : Nat}
    {isTNew : Bool} {s' : Store} {u : UserRow} {b : Bool}
    (h : ensureUser s name password tenantId isTNew = (s', u, b))
    (hfresh : isTNew = true → ∀ x ∈ s.users, x.tenantId ≠ tenantId) :
    s'.users.find? (fun x => x.name == name && x.tenantId == tenantId) = some u ∧
    s'.apps = s.apps ∧ s'.tenants = s.tenants ∧ s'.roles = s.roles ∧
    s'.perms = s.perms ∧ s'.user2role = s.user2role ∧
    s'.perm2role = s.perm2role ∧ s.nextId ≤ s'.nextId := by
  unfold ensureUser at h
  cases isTNew with
  | true =>
    simp only [if_true] at h
    obtain ⟨h1, h2, h3⟩ := by simpa [Prod.mk.injEq] using h
    subst h1
    subst h2
    subst h3
    refine ⟨?_, rfl, rfl, rfl, rfl, rfl, rfl, by simp⟩
    rw [List.find?_append]
    rw [List.find?_eq_none.mpr (fun x hx => by simp [hfresh rfl x hx])]
    simp
  | false =>
    simp only [Bool.false_eq_true, if_false] at h
    rcases hf : s.users.find? (fun x => x.name == name && x.tenantId == tenantId)
      with _ | u0 <;> rw [hf] at h
    · obtain ⟨h1, h2, h3⟩ := by simpa [Prod.mk.injEq] using h
      subst h1
      subst h2
      subst h3
      refine ⟨?_, rfl, rfl, rfl, rfl, rfl, rfl, by simp⟩
      rw [List.find?_append, hf]
      simp
    · obtain ⟨h1, h2, h3⟩ := by simpa [Prod.mk.injEq] using h
      subst h1
      subst h2
      subst h3
      exact ⟨hf, rfl, rfl, rfl, rfl, rfl, rfl, le_refl _⟩

/-- What step 4 guarantees, under the freshness fact that a brand-new
tenant id is referenced by no existing role. -/
lemma ensureRole_spec {s : Store} {name : String} {tenantId : Nat}
    {isTNew : Bool} {s' : Store} {r : RoleRow} {b : Bool}
    (h : ensureRole s name tenantId isTNew = (s', r, b))
    (hfresh : isTNew = true → ∀ x ∈ s.roles, x.tenantId ≠ tenantId) :
    s'.roles.find? (fun x => x.name == name && x.tenantId == tenantId) = some r ∧
    s'.apps = s.apps ∧ s'.tenants = s.tenants ∧ s'.users = s.users ∧
    s'.perms = s.perms ∧ s'.user2role = s.user2role ∧
    s'.perm2role = s.perm2role ∧ s.nextId ≤ s'.nextId := by
  unfold ensureRole at h
  cases isTNew with
  | true =>
    simp only [if_true] at h
    obtain ⟨h1, h2, h3⟩ := by simpa [Prod.mk.injEq] using h
    subst h1
    subst h2
    subst h3
    refine ⟨?_, rfl, rfl, rfl, rfl, rfl, rfl, by simp⟩
    rw [List.find?_append]
    rw [List.find?_eq_none.mpr (fun x hx => by simp [hfresh rfl x hx])]
    simp
  | false =>
    simp only [Bool.false_eq_true, if_false] at h
    rcases hf : s.roles.find? (fun x => x.name == name && x.tenantId == tenantId)
      with _ | r0 <;> rw [hf] at h
    · obtain ⟨h1, h2, h3⟩ := by simpa [Prod.mk.injEq] using h
      subst h1
      subst h2
      subst h3
      refine ⟨?_, rfl, rfl, rfl, rfl, rfl, rfl, by simp⟩
      rw [List.find?_append, hf]
      simp
    · obtain ⟨h1, h2, h3⟩ := by simpa [Prod.mk.injEq] using h
      subst h1
      subst h2
      subst h3
      exact ⟨hf, rfl, rfl, rfl, rfl, rfl, rfl, le_refl _⟩

/-- What step 5 guarantees on any run: the output names follow the
catalog, afterwards the permission probe finds exactly the recorded row
for every output entry, and only the permissions table grew. -/
lemma ensurePerms_spec {tid : Nat} {isTNew : Bool}
    (cat : List (String × String)) (s s' : Store)
    (outs : List (String × PermRow × Bool)) (hn : Bool)
    (h : ensurePerms s tid isTNew cat = (s', outs, hn))
    (hnone : isTNew = true → ∀ e ∈ cat,
      s.perms.find? (fun x => x.name == e.1 && x.tenantId == tid) = none)
    (hnd : (cat.map Prod.fst).Nodup) :
    outs.map (fun e => e.1) = cat.map Prod.fst ∧
    (∀ e ∈ outs, s'.perms.find? (fun x => x.name == e.1 && x.tenantId == tid) = some e.2.1) ∧
    (∃ tail, s'.perms = s.perms ++ tail) ∧
    s'.apps = s.apps ∧ s'.tenants = s.tenants ∧ s'.users = s.users ∧
    s'.roles = s.roles ∧ s'.user2role = s.user2role ∧
    s'.perm2role = s.perm2role := by
  induction cat generalizing s s' outs hn with
  | nil =>
    simp only [ensurePerms] at h
    obtain ⟨h1, h2, h3⟩ := by simpa [Prod.mk.injEq] using h
    subst h1
    subst h2
    subst h3
    exact ⟨rfl, by simp, ⟨[], by simp⟩, rfl, rfl, rfl, rfl, rfl, rfl⟩
  | cons e rest ih =>
    obtain ⟨n, d⟩ := e
    simp only [ensurePerms] at h
    have hcons : (n :: rest.map Prod.fst).Nodup := by
      have h0 := hnd
      rw [List.map_cons] at h0
      exact h0
    have hndrest : (rest.map Prod.fst).Nodup := (List.nodup_cons.mp hcons).2
    have hnmem : n ∉ rest.map Prod.fst := (List.nodup_cons.mp hcons).1
    split at h
    next p heq =>
      -- the permission was found
      rcases hr : ensurePerms s tid isTNew rest with ⟨sR, outsR, hnR⟩
      rw [hr] at h
      obtain ⟨h1, h2, h3⟩ := by simpa [Prod.mk.injEq] using h
      subst h1
      subst h2
      subst h3
      have hpf : s.perms.find? (fun x => x.name == n && x.tenantId == tid) = some p := by
        cases isTNew with
        | true => simp at heq
        | false => simpa using heq
      have hnone1 : isTNew = true → ∀ e ∈ rest,
          s.perms.find? (fun x => x.name == e.1 && x.tenantId == tid) = none :=
        fun hT e he => hnone hT e (List.mem_cons_of_mem _ he)
      obtain ⟨hkeys, hfinds, ⟨tail, htail⟩, hA, hT', hU, hR, hUR, hPR⟩ :=
        ih _ _ _ _ hr hnone1 hndrest
      refine ⟨by simp [hkeys], ?_, ⟨tail, htail⟩, hA, hT', hU, hR, hUR, hPR⟩
      intro e he
      rcases List.mem_cons.mp he with rfl | he
      · show sR.perms.find? _ = some _
        rw [htail, List.find?_append, hpf]
        rfl
      · exact hfinds e he
    next heq =>
      -- the permission is created
      have hhead : s.perms.find? (fun x => x.name == n && x.tenantId == tid) = none := by
        cases isTNew with
        | true => exact hnone rfl (n, d) (List.mem_cons_self _ _)
        | false => simpa using heq
      rcases hr : (ensurePerms ({ s with
          perms := s.perms ++ [⟨s.nextId, n, some d, tid⟩],
          nextId := s.nextId + 1 } : Store) tid isTNew rest) with ⟨sR, outsR, hnR⟩
      rw [hr] at h
      obtain ⟨h1, h2, h3⟩ := by simpa [Prod.mk.injEq] using h
      subst h1
      subst h2
      subst h3
      have hnone1 : isTNew = true → ∀ e ∈ rest,
          (s.perms ++ [(⟨s.nextId, n, some d, tid⟩ : PermRow)]).find?
            (fun x => x.name == e.1 && x.tenantId == tid) = none := by
        intro hT e he
        have hg : s.perms.find? (fun x => x.name == e.1 && x.tenantId == tid) = none :=
          hnone hT e (List.mem_cons_of_mem _ he)
        have hne : n ≠ e.1 := fun hc => hnmem (hc ▸ List.mem_map_of_mem Prod.fst he)
        rw [List.find?_append, hg]
        simp [hne]
      obtain ⟨hkeys, hfinds, ⟨tail, htail⟩, hA, hT', hU, hR, hUR, hPR⟩ :=
        ih _ _ _ _ hr hnone1 hndrest
      refine ⟨by simp [hkeys], ?_, ?_, hA, hT', hU, hR, hUR, hPR⟩
      · intro e he
        rcases List.mem_cons.mp he with rfl | he
        · show sR.perms.find? _ = some _
          rw [htail]
          show ((s.perms ++ [(⟨s.nextId, n, some d, tid⟩ : PermRow)]) ++ tail).find? _ = _
          rw [List.find?_append, List.find?_append, hhead]
          simp
        · exact hfinds e he
      · refine ⟨[(⟨s.nextId, n, some d, tid⟩ : PermRow)] ++ tail, ?_⟩
        rw [htail]
        show (s.perms ++ [(⟨s.nextId, n, some d, tid⟩ : PermRow)]) ++ tail = _
        rw [List.append_assoc]

/-- When every catalog permission is already found by its probe, step 5
leaves the store untouched and reports every flag as false. -/
lemma ensurePerms_found {tid : Nat} (cat : List (String × String))
    (outs : List (String × PermRow × Bool)) (s : Store)
    (hkeys : outs.map (fun e => e.1) = cat.map Prod.fst)
    (hfind : ∀ e ∈ outs,
      s.perms.find? (fun x => x.name == e.1 && x.tenantId == tid) = some e.2.1) :
    ensurePerms s tid false cat
      = (s, outs.map (fun e => (e.1, e.2.1, false)), false) := by
  induction cat generalizing outs with
  | nil =>
    have houts : outs = [] := by
      cases outs with
      | nil => rfl
      | cons o os => simp at hkeys
    subst houts
    simp [ensurePerms]
  | cons e rest ih =>
    obtain ⟨n, d⟩ := e
    rcases outs with _ | ⟨o, outs'⟩
    · simp at hkeys
    · obtain ⟨h1, h2⟩ : o.1 = n ∧ outs'.map (fun e => e.1) = rest.map Prod.fst := by
        simpa using hkeys
      have hpf : s.perms.find? (fun x => x.name == n && x.tenantId == tid) = some o.2.1 := by
        rw [← h1]
        exact hfind o (List.mem_cons_self _ _)
      have hrec := ih outs' h2 (fun e he => hfind e (List.mem_cons_of_mem _ he))
      simp [ensurePerms, hpf, hrec, h1]

/-- Closed form of step 5 when the tenant is new: every probe is skipped
and one row per catalog entry is created, ids drawn in order. -/
lemma ensurePerms_skip (cat : List (String × String)) (s : Store) (tid : Nat) :
    ensurePerms s tid true cat
      = ({ s with
            perms := s.perms ++ permRowsFrom s.nextId tid cat,
            nextId := s.nextId + cat.length },
         (permRowsFrom s.nextId tid cat).map (fun p => (p.name, p, true)),
         !cat.isEmpty) := by
  induction cat generalizing s with
  | nil => simp [ensurePerms, permRowsFrom]
  | cons e rest ih =>
    obtain ⟨n, d⟩ := e
    simp only [ensurePerms, if_true, reduceIte]
    rw [ih]
    simp only [permRowsFrom, List.map_cons, List.isEmpty_cons]
    refine congrArg₂ Prod.mk ?_ (congrArg₂ Prod.mk rfl rfl)
    show ({ s with
      perms := (s.perms ++ [(⟨s.nextId, n, some d, tid⟩ : PermRow)])
        ++ permRowsFrom (s.nextId + 1) tid rest,
      nextId := s.nextId + 1 + rest.length } : Store) = _
    rw [List.append_assoc]
    show ({ s with
      perms := s.perms ++ (permRowsFrom s.nextId tid ((n, d) :: rest)),
      nextId := s.nextId + 1 + rest.length } : Store) = _
    rw [Nat.add_assoc, Nat.add_comm 1 rest.length]
    rfl

/-- The created rows carry the catalog names in order. -/
lemma permRowsFrom_names (n tid : Nat) (cat : List (String × String)) :
    (permRowsFrom n tid cat).map (fun p => p.name) = cat.map Prod.fst := by
  induction cat generalizing n with
  | nil => rfl
  | cons e rest ih =>
    obtain ⟨a, b⟩ := e
    simp [permRowsFrom, ih]

/-- The created rows draw consecutive ids. -/
lemma permRowsFrom_ids (n tid : Nat) (cat : List (String × String)) :
    (permRowsFrom n tid cat).map (fun p => p.id) = List.range' n cat.length := by
  induction cat generalizing n with
  | nil => rfl
  | cons e rest ih =>
    obtain ⟨a, b⟩ := e
    simp [permRowsFrom, ih, List.range']

/-- The created rows all live in the given tenant. -/
lemma permRowsFrom_tenant (n tid : Nat) (cat : List (String × String)) :
    ∀ p ∈ permRowsFrom n tid cat, p.tenantId = tid := by
  induction cat generalizing n with
  | nil => intro p hp; cases hp
  | cons e rest ih =>
    obtain ⟨a, b⟩ := e
    intro p hp
    rcases List.mem_cons.mp hp with rfl | hp
    · rfl
    · exact ih (n + 1) p hp

/-- A successful commit returns the pending state itself and certifies
that it satisfies the schema constraints. -/
lemma commitStore_some {σ σ' : Store} (h : commitStore σ = some σ') :
    σ' = σ ∧ σ.constraintsOk = true := by
  unfold commitStore at h
  by_cases hc : σ.constraintsOk
  · rw [if_pos hc] at h
    exact ⟨(Option.some.injEq _ _ ▸ h).symm, hc⟩
  · rw [if_neg hc] at h
    cases h

/-- Everything a successful bootstrap run guarantees about its final
state: each probe of a second run finds exactly the recorded row, the
associations are in place, and the committed state satisfies the schema
constraints. -/
lemma init_db_spec {s : Store} {args : InitArgs} {s₁ : Store}
    {r : InitDbResult} (h : init_db s args = some (s₁, r)) (hwf : s.WF)
    (hnd : (args.perms.map Prod.fst).Nodup) :
    s₁.apps.find? (fun x => x.slug == args.app) = some r.app ∧
    s₁.tenants.find? (fun x => x.slug == args.tenant && x.applicationId == r.app.id)
      = some r.tenant ∧
    s₁.users.find? (fun x => x.name == args.user && x.tenantId == r.tenant.id)
      = some r.user ∧
    s₁.roles.find? (fun x => x.name == args.role && x.tenantId == r.tenant.id)
      = some r.role ∧
    r.perms.map (fun e => e.1) = args.perms.map Prod.fst ∧
    (∀ e ∈ r.perms, s₁.perms.find?
      (fun x => x.name == e.1 && x.tenantId == r.tenant.id) = some e.2.1) ∧
    (r.user.id, r.role.id) ∈ s₁.user2role ∧
    (∀ e ∈ r.perms, (e.2.1.id, r.role.id) ∈ s₁.perm2role) ∧
    s₁.constraintsOk = true := by
  obtain ⟨hwfA, hwfT, hwfU, hwfR, hwfP⟩ := hwf
  simp only [init_db] at h
  rcases hA : ensureApp s args.app with ⟨sA, a, bA⟩
  simp only [hA] at h
  obtain ⟨findA, frTA, frUA, frRA, frPA, frURA, frPRA, nextA, newA⟩ := ensureApp_spec hA
  rcases hT : ensureTenant sA args.tenant a.id bA with ⟨sB, t, bT⟩
  simp only [hT] at h
  have hfreshT : bA = true → ∀ x ∈ sA.tenants, x.applicationId ≠ a.id := by
    intro hb x hx
    rw [frTA] at hx
    have := (hwfT x hx).2
    rw [newA hb]
    omega
  obtain ⟨findT, frAT, frUT, frRT, frPT, frURT, frPRT, nextT, newT⟩ :=
    ensureTenant_spec hT hfreshT
  rcases hU : ensureUser sB args.user args.password t.id bT with ⟨sC, u, bU⟩
  simp only [hU] at h
  have htid : bT = true → s.nextId ≤ t.id := by
    intro hb
    rw [newT hb]
    exact nextA
  have hfreshU : bT = true → ∀ x ∈ sB.users, x.tenantId ≠ t.id := by
    intro hb x hx
    rw [frUT, frUA] at hx
    have := hwfU x hx
    have := htid hb
    omega
  obtain ⟨findU, frAU, frTU, frRU, frPU, frURU, frPRU, nextU⟩ :=
    ensureUser_spec hU hfreshU
  rcases hR : ensureRole sC args.role t.id bT with ⟨sD, ro, bR⟩
  simp only [hR] at h
  have hfreshR : bT = true → ∀ x ∈ sC.roles, x.tenantId ≠ t.id := by
    intro hb x hx
    rw [frRU, frRT, frRA] at hx
    have := hwfR x hx
    have := htid hb
    omega
  obtain ⟨findR, frAR, frTR, frUR', frPR', frURR, frPRR, nextR⟩ :=
    ensureRole_spec hR hfreshR
  rcases hP : ensurePerms sD t.id bT args.perms with ⟨sE, outs, hnew⟩
  simp only [hP] at h
  have hnoneP : bT = true → ∀ e ∈ args.perms,
      sD.perms.find? (fun x => x.name == e.1 && x.tenantId == t.id) = none := by
    intro hb e he
    apply List.find?_eq_none.mpr
    intro x hx
    rw [frPR', frPU, frPT, frPA] at hx
    have := hwfP x hx
    have := htid hb
    simp only [Bool.and_eq_true, beq_iff_eq, not_and]
    intro _
    omega
  obtain ⟨keysP, findsP, ⟨tailP, htailP⟩, frAP, frTP, frUP, frRP, frURP, frPRP⟩ :=
    ensurePerms_spec args.perms sD sE outs hnew hP hnoneP hnd
  obtain ⟨memU2R, memP2R⟩ := addAssociations_mem sE u.id ro.id outs
  obtain ⟨fA6, fT6, fU6, fR6, fP6, fN6, fUR6⟩ := addAssociations_fields sE u.id ro.id outs
  rcases hC : commitStore (addAssociations sE u.id ro.id outs) with _ | sF
  · rw [hC] at h
    cases h
  · rw [hC] at h
    obtain ⟨hs, hr⟩ : sF = s₁ ∧ _ = r := by simpa using h
    obtain ⟨hFeq, hokF⟩ := commitStore_some hC
    subst hs
    subst hr
    rw [hFeq]
    refine ⟨?_, ?_, ?_, ?_, keysP, ?_, memU2R, memP2R, hokF⟩
    · rw [fA6, frAP, frAR, frAU, frAT]
      exact findA
    · rw [fT6, frTP, frTR, frTU]
      exact findT
    · rw [fU6, frUP, frUR']
      exact findU
    · rw [fR6, frRP]
      exact findR
    · intro e he
      rw [fP6]
      exact findsP e he

/-- A bootstrap run over a store in which every probe already finds its
row, and every association already exists, returns the store unchanged
with every newly-created flag false. -/
lemma init_db_second {s₁ : Store} {args : InitArgs} {r : InitDbResult}
    (F1 : s₁.apps.find? (fun x => x.slug == args.app) = some r.app)
    (F2 : s₁.tenants.find? (fun x => x.slug == args.tenant && x.applicationId == r.app.id)
      = some r.tenant)
    (F3 : s₁.users.find? (fun x => x.name == args.user && x.tenantId == r.tenant.id)
      = some r.user)
    (F4 : s₁.roles.find? (fun x => x.name == args.role && x.tenantId == r.tenant.id)
      = some r.role)
    (F5 : r.perms.map (fun e => e.1) = args.perms.map Prod.fst)
    (F6 : ∀ e ∈ r.perms, s₁.perms.find?
      (fun x => x.name == e.1 && x.tenantId == r.tenant.id) = some e.2.1)
    (F7 : (r.user.id, r.role.id) ∈ s₁.user2role)
    (F8 : ∀ e ∈ r.perms, (e.2.1.id, r.role.id) ∈ s₁.perm2role)
    (F9 : s₁.constraintsOk = true) :
    init_db s₁ args = some (s₁,
      { app := r.app, isAppNew := false, tenant := r.tenant, isTNew := false,
        user := r.user, isUNew := false, role := r.role, isRNew := false,
        perms := r.perms.map (fun e => (e.1, e.2.1, false)),
        hasNewPerms := false }) := by
  have hA : ensureApp s₁ args.app = (s₁, r.app, false) := by
    unfold ensureApp
    rw [F1]
  have hT : ensureTenant s₁ args.tenant r.app.id false = (s₁, r.tenant, false) := by
    simp [ensureTenant, F2]
  have hU : ensureUser s₁ args.user args.password r.tenant.id false
      = (s₁, r.user, false) := by
    simp [ensureUser, F3]
  have hR : ensureRole s₁ args.role r.tenant.id false = (s₁, r.role, false) := by
    simp [ensureRole, F4]
  have hP : ensurePerms s₁ r.tenant.id false args.perms
      = (s₁, r.perms.map (fun e => (e.1, e.2.1, false)), false) :=
    ensurePerms_found args.perms r.perms s₁ F5 F6
  have hAssoc : addAssociations s₁ r.user.id r.role.id
      (r.perms.map (fun e => (e.1, e.2.1, false))) = s₁ := by
    apply addAssociations_noop _ _ _ _ F7
    intro e he
    simp only [List.mem_map] at he
    obtain ⟨e', he', rfl⟩ := he
    exact F8 e' he'
  simp only [init_db, hA, hT, hU, hR, hP, hAssoc, commitStore, F9, if_true]

/-- C5: running the bootstrap twice in succession with identical
arguments yields the same final state as running it once, and the second
run creates no rows — every newly-created flag it reports is false. -/
theorem init_db_idempotent (s : Store) (args : InitArgs) (s₁ : Store)
    (r₁ : InitDbResult) (hwf : s.WF)
    (hnd : (args.perms.map Prod.fst).Nodup)
    (h : init_db s args = some (s₁, r₁)) :
    ∃ r₂ : InitDbResult, init_db s₁ args = some (s₁, r₂) ∧
      r₂.isAppNew = false ∧ r₂.isTNew = false ∧ r₂.isUNew = false ∧
      r₂.isRNew = false ∧ r₂.hasNewPerms = false ∧
      ∀ e ∈ r₂.perms, e.2.2 = false := by
  obtain ⟨F1, F2, F3, F4, F5, F6, F7, F8, F9⟩ := init_db_spec h hwf hnd
  refine ⟨_, init_db_second F1 F2 F3 F4 F5 F6 F7 F8 F9,
    rfl, rfl, rfl, rfl, rfl, ?_⟩
  intro e he
  simp only [List.mem_map] at he
  obtain ⟨e', _, rfl⟩ := he
  rfl

/-- Witness for C5: bootstrapping the empty store with `exArgs` and then
bootstrapping the resulting store again returns it unchanged with all
flags false. -/
theorem init_db_idempotent_witness :
    Store.WF emptyStore ∧
    (∃ r₂ : InitDbResult, init_db exState1 exArgs = some (exState1, r₂) ∧
      r₂.isAppNew = false ∧ r₂.isTNew = false ∧ r₂.isUNew = false ∧
      r₂.isRNew = false ∧ r₂.hasNewPerms = false ∧
      ∀ e ∈ r₂.perms, e.2.2 = false) :=
  ⟨by decide, init_db_idempotent emptyStore exArgs exState1 exResult1
    (by decide) (by decide) (by decide)⟩

/-- Closed form of the association fold when no listed edge pre-exists
and the listed permission ids are pairwise distinct. -/
lemma foldPermAssoc_fresh (l : List (String × PermRow × Bool)) (rid : Nat) :
    ∀ σ : Store, (l.map (fun e => e.2.1.id)).Nodup →
    (∀ e ∈ l, (e.2.1.id, rid) ∉ σ.perm2role) →
    l.foldl (fun acc e =>
        { acc with perm2role := addAssoc acc.perm2role (e.2.1.id, rid) }) σ
      = { σ with perm2role := σ.perm2role ++ l.map (fun e => (e.2.1.id, rid)) } := by
  induction l with
  | nil =>
    intro σ _ _
    simp
  | cons e es ih =>
    intro σ hnd hnotin
    simp only [List.foldl_cons]
    have hadd : addAssoc σ.perm2role (e.2.1.id, rid)
        = σ.perm2role ++ [(e.2.1.id, rid)] := by
      unfold addAssoc
      rw [if_neg (hnotin e (List.mem_cons_self e es))]
    rw [hadd]
    have hnd' : (es.map (fun e => e.2.1.id)).Nodup := by
      rw [List.map_cons, List.nodup_cons] at hnd
      exact hnd.2
    have hhead : e.2.1.id ∉ es.map (fun e => e.2.1.id) := by
      rw [List.map_cons, List.nodup_cons] at hnd
      exact hnd.1
    rw [ih _ hnd' ?_]
    · show ({ σ with
        perm2role := (σ.perm2role ++ [(e.2.1.id, rid)])
          ++ es.map (fun e => (e.2.1.id, rid)) } : Store) = _
      rw [List.append_assoc]
      rfl
    · intro e' he' hc
      rcases List.mem_append.mp hc with hc | hc
      · exact hnotin e' (List.mem_cons_of_mem e he') hc
      · have hfst : e'.2.1.id = e.2.1.id := by
          have := List.mem_singleton.mp hc
          exact congrArg Prod.fst this
        exact hhead (hfst ▸ List.mem_map_of_mem (fun e => e.2.1.id) he')

/-- C6: bootstrapping an empty store creates exactly one application with
the given slug, one tenant under it, one user, one role, and one
permission per catalog entry, and afterwards the user is associated with
the role and the role with every permission. -/
theorem init_db_bootstrap_empty (args : InitArgs)
    (hnd : (args.perms.map Prod.fst).Nodup) :
    ∃ s₁ r, init_db emptyStore args = some (s₁, r) ∧
      s₁.apps.map (fun x => x.slug) = [args.app] ∧
      s₁.tenants.map (fun x => x.slug) = [args.tenant] ∧
      s₁.users.map (fun x => x.name) = [args.user] ∧
      s₁.roles.map (fun x => x.name) = [args.role] ∧
      s₁.perms.map (fun x => x.name) = args.perms.map Prod.fst ∧
      (r.user.id, r.role.id) ∈ s₁.user2role ∧
      ∀ p ∈ s₁.perms, (p.id, r.role.id) ∈ s₁.perm2role := by
  have hidsnodup : ((permRowsFrom 4 1 args.perms).map (fun p => p.id)).Nodup := by
    rw [permRowsFrom_ids]
    exact List.nodup_range' 4 args.perms.length 1 Nat.one_pos
  have hA : ensureApp emptyStore args.app
      = ({ apps := [⟨0, args.app, none⟩], nextId := 1 },
         ⟨0, args.app, none⟩, true) := rfl
  have hT : ensureTenant ({ apps := [⟨0, args.app, none⟩], nextId := 1 } : Store)
      args.tenant 0 true
      = ({ apps := [⟨0, args.app, none⟩],
           tenants := [⟨1, args.tenant, none, 0⟩], nextId := 2 },
         ⟨1, args.tenant, none, 0⟩, true) := rfl
  have hU : ensureUser ({ apps := [⟨0, args.app, none⟩], tenants := [⟨1, args.tenant, none, 0⟩], nextId := 2 } : Store) args.user args.password 1 true = (({ apps := [⟨0, args.app, none⟩], tenants := [⟨1, args.tenant, none, 0⟩], users := [⟨2, args.user, some args.password, false, 1⟩], nextId := 3 } : Store), ⟨2, args.user, some args.password, false, 1⟩, true) := rfl
  have hR : ensureRole ({ apps := [⟨0, args.app, none⟩], tenants := [⟨1, args.tenant, none, 0⟩], users := [⟨2, args.user, some args.password, false, 1⟩], nextId := 3 } : Store) args.role 1 true = (({ apps := [⟨0, args.app, none⟩], tenants := [⟨1, args.tenant, none, 0⟩], users := [⟨2, args.user, some args.password, false, 1⟩], roles := [⟨3, args.role, 1⟩], nextId := 4 } : Store), ⟨3, args.role, 1⟩, true) := rfl
  have hP : ensurePerms ({ apps := [⟨0, args.app, none⟩], tenants := [⟨1, args.tenant, none, 0⟩], users := [⟨2, args.user, some args.password, false, 1⟩], roles := [⟨3, args.role, 1⟩], nextId := 4 } : Store) 1 true args.perms = (({ apps := [⟨0, args.app, none⟩], tenants := [⟨1, args.tenant, none, 0⟩], users := [⟨2, args.user, some args.password, false, 1⟩], roles := [⟨3, args.role, 1⟩], perms := permRowsFrom 4 1 args.perms, nextId := 4 + args.perms.length } : Store), (permRowsFrom 4 1 args.perms).map (fun p => (p.name, p, true)), !args.perms.isEmpty) := by
    rw [ensurePerms_skip]
    rfl
  have haddeq : addAssociations ({ apps := [⟨0, args.app, none⟩], tenants := [⟨1, args.tenant, none, 0⟩], users := [⟨2, args.user, some args.password, false, 1⟩], roles := [⟨3, args.role, 1⟩], perms := permRowsFrom 4 1 args.perms, nextId := 4 + args.perms.length } : Store) 2 3 ((permRowsFrom 4 1 args.perms).map (fun p => (p.name, p, true))) = ({ apps := [⟨0, args.app, none⟩], tenants := [⟨1, args.tenant, none, 0⟩], users := [⟨2, args.user, some args.password, false, 1⟩], roles := [⟨3, args.role, 1⟩], perms := permRowsFrom 4 1 args.perms, user2role := [(2, 3)], perm2role := (permRowsFrom 4 1 args.perms).map (fun p => (p.id, 3)), nextId := 4 + args.perms.length } : Store) := by
    unfold addAssociations
    rw [foldPermAssoc_fresh _ 3 _ (by simpa [List.map_map, Function.comp] using hidsnodup)
      (fun e he hc => by simp [addAssoc] at hc)]
    simp [addAssoc, List.map_map, Function.comp]
  have hok : (({ apps := [⟨0, args.app, none⟩], tenants := [⟨1, args.tenant, none, 0⟩], users := [⟨2, args.user, some args.password, false, 1⟩], roles := [⟨3, args.role, 1⟩], perms := permRowsFrom 4 1 args.perms, user2role := [(2, 3)], perm2role := (permRowsFrom 4 1 args.perms).map (fun p => (p.id, 3)), nextId := 4 + args.perms.length } : Store)).constraintsOk = true := by
    simp [Store.constraintsOk, uniqueBy, permRowsFrom_names, hnd, permRowsFrom_ids,
      List.nodup_range' 4 args.perms.length 1 Nat.one_pos]
  refine ⟨({ apps := [⟨0, args.app, none⟩], tenants := [⟨1, args.tenant, none, 0⟩], users := [⟨2, args.user, some args.password, false, 1⟩], roles := [⟨3, args.role, 1⟩], perms := permRowsFrom 4 1 args.perms, user2role := [(2, 3)], perm2role := (permRowsFrom 4 1 args.perms).map (fun p => (p.id, 3)), nextId := 4 + args.perms.length } : Store), { app := ⟨0, args.app, none⟩, isAppNew := true, tenant := ⟨1, args.tenant, none, 0⟩, isTNew := true, user := ⟨2, args.user, some args.password, false, 1⟩, isUNew := true, role := ⟨3, args.role, 1⟩, isRNew := true, perms := (permRowsFrom 4 1 args.perms).map (fun p => (p.name, p, true)), hasNewPerms := !args.perms.isEmpty }, ?_, ?_, ?_, ?_, ?_, ?_, ?_, ?_⟩
  · simp only [init_db, hA, hT, hU, hR, hP, haddeq, commitStore, hok, eq_self_iff_true,
      if_true]
  · rfl
  · rfl
  · rfl
  · rfl
  · exact permRowsFrom_names 4 1 args.perms
  · exact List.mem_singleton.mpr rfl
  · intro p hp
    exact List.mem_map_of_mem (fun p => (p.id, 3)) hp

/-- Witness for C6: bootstrapping the empty store with the one-permission
catalog of `exArgs` creates exactly the described rows and associations. -/
theorem init_db_bootstrap_empty_witness :
    (exArgs.perms.map Prod.fst).Nodup ∧
    (∃ s₁ r, init_db emptyStore exArgs = some (s₁, r) ∧
      s₁.apps.map (fun x => x.slug) = [exArgs.app] ∧
      s₁.tenants.map (fun x => x.slug) = [exArgs.tenant] ∧
      s₁.users.map (fun x => x.name) = [exArgs.user] ∧
      s₁.roles.map (fun x => x.name) = [exArgs.role] ∧
      s₁.perms.map (fun x => x.name) = exArgs.perms.map Prod.fst ∧
      (r.user.id, r.role.id) ∈ s₁.user2role ∧
      ∀ p ∈ s₁.perms, (p.id, r.role.id) ∈ s₁.perm2role) :=
  ⟨by decide, init_db_bootstrap_empty exArgs (by decide)⟩

end SecmaCore
